import Mathlib

/-!
Shallow embedding of tools/check_theme_manifests.py, a linter for Chromium
theme manifests: a Locator enumerating theme directories, a Loader turning
files into parsed JSON documents or load Issues, a Validator applying field
and shape rules, and a Driver aggregating Issues into a report and an exit
code.  Python dictionaries, the json module and the filesystem are modelled
explicitly; machine behaviour that the script observes (Python equality
between ints and floats, AttributeError on attribute access of non-dict
values, repr rendering) is embedded faithfully.
-/

namespace Archon

/-- JSON values as produced by json.loads of the Python standard library:
null and the booleans, integer literals as Python int, decimal literals as
Python float (modelled by the exact rational number the literal denotes),
strings, arrays, and objects as association lists of string keys in
insertion order. -/
inductive Json where
  | null : Json
  | bool (b : Bool) : Json
  | int (n : Int) : Json
  | float (q : ℚ) : Json
  | str (s : String) : Json
  | arr (xs : List Json) : Json
  | obj (kvs : List (String × Json)) : Json

/-- Python dict.get with default None: the value at the last occurrence of
the key (json.loads keeps the last duplicate), or null when absent. -/
def getD (kvs : List (String × Json)) (k : String) : Json :=
  kvs.foldl (fun acc kv => if kv.1 = k then kv.2 else acc) Json.null

/-- Python membership test `k in d` on a dict. -/
def hasKey (kvs : List (String × Json)) (k : String) : Bool :=
  kvs.any (fun kv => kv.1 == k)

/-- Python equality test of a parsed JSON value against an int literal, as in
the source comparison `manifest_version != 3`: ints compare by value, floats
compare numerically (the float 3.0 equals the int 3 in Python), booleans are
ints of value 0 or 1, and every other type is unequal to an int. -/
def pyEqInt (v : Json) (n : Int) : Bool :=
  match v with
  | Json.int m => m == n
  | Json.float q => q == (n : ℚ)
  | Json.bool b => (if b then (1 : Int) else 0) == n
  | _ => false

/-- The apostrophe character as a one-character string. -/
def sq : String := (Char.ofNat 39).toString

/-- Python repr of a str, modelled for strings free of control characters,
backslashes and mixed quotes: double-quoted when the text itself holds an
apostrophe and no double quote, else single-quoted. -/
def pyReprStr (s : String) : String :=
  if s.contains (Char.ofNat 39) && !(s.contains (Char.ofNat 34)) then
    "\"" ++ s ++ "\""
  else
    sq ++ s ++ sq

/-- Smallest exponent k with den dividing 10 ^ k, when one exists below the
value of den itself; this is the length of the exact decimal expansion. -/
def decExp (den : Nat) : Option Nat :=
  (List.range (den + 1)).find? (fun k => 10 ^ k % den == 0)

/-- Python repr of a float, under the exact-decimal idealisation of floats:
a value with a terminating decimal expansion is rendered positionally with
at least one digit after the point, as repr renders floats of moderate
magnitude; other rationals (unreachable from actual floats) fall back to a
fraction rendering. -/
def floatRepr (q : ℚ) : String :=
  match decExp q.den with
  | some k =>
    let scaled : Int := q.num * (10 : Int) ^ k / (q.den : Int)
    if k == 0 then toString scaled ++ ".0"
    else
      let s := toString scaled.natAbs
      let s := if s.length ≤ k then
          String.mk (List.replicate (k + 1 - s.length) (Char.ofNat 48)) ++ s
        else s
      (if q.num < 0 then "-" else "") ++
        (s.take (s.length - k)) ++ "." ++ (s.drop (s.length - k))
  | none => toString q.num ++ "/" ++ toString q.den

mutual

/-- Python repr of a parsed JSON value, as interpolated by the f-string
`found ...manifest_version!r` of the Validator. -/
def pyRepr : Json → String
  | Json.null => "None"
  | Json.bool true => "True"
  | Json.bool false => "False"
  | Json.int n => toString n
  | Json.float q => floatRepr q
  | Json.str s => pyReprStr s
  | Json.arr xs => "[" ++ pyReprList xs ++ "]"
  | Json.obj kvs => "\x7b" ++ pyReprPairs kvs ++ "\x7d"

/-- Comma-separated repr of the elements of a Python list. -/
def pyReprList : List Json → String
  | [] => ""
  | [x] => pyRepr x
  | x :: xs => pyRepr x ++ ", " ++ pyReprList xs

/-- Comma-separated repr of the key-value pairs of a Python dict. -/
def pyReprPairs : List (String × Json) → String
  | [] => ""
  | [(k, v)] => pyReprStr k ++ ": " ++ pyRepr v
  | (k, v) :: kvs => pyReprStr k ++ ": " ++ pyRepr v ++ ", " ++ pyReprPairs kvs

end

/-- One validation failure record: a manifest path and a message, mirroring
the ManifestIssue dataclass. -/
structure ManifestIssue where
  path : String
  message : String
deriving DecidableEq

/-- ManifestIssue.format of the source. -/
def ManifestIssue.format (i : ManifestIssue) : String :=
  i.path ++ ": " ++ i.message

/-- One entry of the themes root directory listing, as seen by the Locator:
a name and whether the entry is a directory. -/
structure DirEntry where
  name : String
  isDir : Bool
deriving DecidableEq

/-- The Bool comparison by which sorted orders the entries of a directory:
Python sorts the Path objects, which for children of one directory is the
lexicographic order of their names. -/
def nameLe (a b : DirEntry) : Bool := decide (a.name ≤ b.name)

/-- The startswith method of Python str, on the characters of the two
strings. -/
def startswith (s pre : String) : Bool :=
  pre.data.isPrefixOf s.data

/-- The loop body filter of iter_manifest_paths: entries whose name starts
with a dot are skipped, as are entries that are not directories. -/
def keepEntry (e : DirEntry) : Bool :=
  !(startswith e.name ".") && e.isDir

/-- iter_manifest_paths of the source: sort the directory listing, skip
hidden entries and non-directories, and yield entry/manifest.json for each
remaining entry.  The filesystem is consulted only for the listing — the
result does not depend on which manifest files exist. -/
def iter_manifest_paths (root : String) (entries : List DirEntry) : List String :=
  ((entries.mergeSort nameLe).filter keepEntry).map
    (fun e => root ++ "/" ++ e.name ++ "/manifest.json")

/-- What the filesystem and json.loads jointly give for one path: the file
is missing, or exists but raises JSONDecodeError with the given message, or
parses to a document. -/
inductive FileJson where
  | missing : FileJson
  | invalid (err : String) : FileJson
  | parsed (doc : Json) : FileJson
deriving Inhabited

/-- The dict-or-ManifestIssue union returned by load_manifest. -/
inductive LoadResult where
  | doc (j : Json) : LoadResult
  | issue (i : ManifestIssue) : LoadResult

/-- load_manifest of the source: a missing file gives the missing-manifest
Issue, a JSONDecodeError is wrapped verbatim into an invalid-JSON Issue, and
a successful parse returns the document whatever its shape. -/
def load_manifest (files : String → FileJson) (path : String) : LoadResult :=
  match files path with
  | FileJson.missing => LoadResult.issue ⟨path, "missing manifest.json"⟩
  | FileJson.invalid err => LoadResult.issue ⟨path, "invalid JSON: " ++ err⟩
  | FileJson.parsed doc => LoadResult.doc doc

/-- The Python exception raised when validate_manifest receives a value
without a get attribute. -/
inductive PyExc where
  | attributeError (msg : String) : PyExc
deriving DecidableEq

/-- The Python type name of a parsed JSON value, as it appears in the
AttributeError message. -/
def pyTypeName : Json → String
  | Json.null => "NoneType"
  | Json.bool _ => "bool"
  | Json.int _ => "int"
  | Json.float _ => "float"
  | Json.str _ => "str"
  | Json.arr _ => "list"
  | Json.obj _ => "dict"

/-- The tuple of required field names checked by the Validator, in source
order. -/
def requiredFields : List String := ["name", "version", "theme"]

/-- The fixed head of the manifest-version Issue message. -/
def versionMsgHead : String := "expected manifest_version 3, found "

/-- The missing-required-field Issue message for one field name. -/
def missingFieldMsg (f : String) : String :=
  "missing required field " ++ sq ++ f ++ sq

/-- The theme-shape Issue message. -/
def themeObjMsg : String := "theme section must be an object"

/-- The colors-or-images recommendation Issue message. -/
def themeRecMsg : String :=
  "theme block should include at least " ++ sq ++ "colors" ++ sq ++
    " or " ++ sq ++ "images" ++ sq

/-- validate_manifest of the source.  On a dict the three rules run in
order, appending Issues; on any other value the first statement
manifest.get already raises AttributeError, since only dicts carry get. -/
def validate_manifest (path : String) (manifest : Json) :
    Except PyExc (List ManifestIssue) :=
  match manifest with
  | Json.obj kvs =>
    let issues : List ManifestIssue := []
    let manifest_version := getD kvs "manifest_version"
    let issues := if pyEqInt manifest_version 3 then issues else
      issues ++ [⟨path, versionMsgHead ++ pyRepr manifest_version⟩]
    let issues := issues ++
      (requiredFields.filter (fun f => !(hasKey kvs f))).map
        (fun f => (⟨path, missingFieldMsg f⟩ : ManifestIssue))
    let issues :=
      match getD kvs "theme" with
      | Json.obj theme_block =>
        if ["colors", "images"].any (fun key => hasKey theme_block key) then
          issues
        else
          issues ++ [⟨path, themeRecMsg⟩]
      | _ => issues ++ [⟨path, themeObjMsg⟩]
    Except.ok issues
  | v =>
    Except.error (PyExc.attributeError
      (sq ++ pyTypeName v ++ sq ++ " object has no attribute " ++
        sq ++ "get" ++ sq))

/-- The state of the world one run observes: the resolved THEMES_DIR path,
whether it exists, its directory listing, and for every path what reading
and parsing that file yields. -/
structure World where
  rootPath : String
  rootExists : Bool
  entries : List DirEntry
  files : String → FileJson

/-- The scanning loop of main: for each candidate path, a load failure is
appended and the scan continues with the next directory; a loaded document
is validated and its issues are appended.  An uncaught exception from the
Validator aborts the whole scan. -/
def processPaths (files : String → FileJson) :
    List String → Except PyExc (List ManifestIssue)
  | [] => Except.ok []
  | p :: rest =>
    match load_manifest files p with
    | LoadResult.issue i =>
      match processPaths files rest with
      | Except.ok is => Except.ok (i :: is)
      | Except.error e => Except.error e
    | LoadResult.doc m =>
      match validate_manifest p m with
      | Except.error e => Except.error e
      | Except.ok is =>
        match processPaths files rest with
        | Except.ok rest' => Except.ok (is ++ rest')
        | Except.error e => Except.error e

/-- The observable outcome of one run: the process exit code and the lines
written to stdout and stderr. -/
structure RunResult where
  exitCode : Nat
  stdoutLines : List String
  stderrLines : List String
deriving DecidableEq

/-- main of the source: a missing themes root prints one diagnostic line
and exits 2; otherwise the scan runs, a non-empty aggregate prints the
header and one indented line per issue and exits 1, and an empty aggregate
prints the success line and exits 0. -/
def main (w : World) : Except PyExc RunResult :=
  if !w.rootExists then
    Except.ok ⟨2, [], ["error: themes directory not found: " ++ w.rootPath]⟩
  else
    match processPaths w.files (iter_manifest_paths w.rootPath w.entries) with
    | Except.error e => Except.error e
    | Except.ok all_issues =>
      if all_issues.isEmpty then
        Except.ok ⟨0, ["All theme manifests look good."], []⟩
      else
        Except.ok ⟨1, "Theme manifest validation failed:" ::
          all_issues.map (fun i => "  - " ++ i.format), []⟩

/-- The Issues produced by validation rule 1 (manifest version) alone. -/
def ruleVersionIssues (path : String) (kvs : List (String × Json)) :
    List ManifestIssue :=
  if pyEqInt (getD kvs "manifest_version") 3 then [] else
    [⟨path, versionMsgHead ++ pyRepr (getD kvs "manifest_version")⟩]

/-- The Issues produced by validation rule 2 (required fields) alone. -/
def ruleFieldIssues (path : String) (kvs : List (String × Json)) :
    List ManifestIssue :=
  (requiredFields.filter (fun f => !(hasKey kvs f))).map
    (fun f => (⟨path, missingFieldMsg f⟩ : ManifestIssue))

/-- The Issues produced by the theme shape rules alone. -/
def ruleThemeIssues (path : String) (kvs : List (String × Json)) :
    List ManifestIssue :=
  match getD kvs "theme" with
  | Json.obj theme_block =>
    if ["colors", "images"].any (fun key => hasKey theme_block key) then []
    else [⟨path, themeRecMsg⟩]
  | _ => [⟨path, themeObjMsg⟩]

/-- Does a parsed JSON value have object shape. -/
def isObjJ : Json → Bool
  | Json.obj _ => true
  | _ => false

/-- A version-related Issue: its message carries the fixed head of the
manifest-version message. -/
def isVersionIssue (i : ManifestIssue) : Bool :=
  versionMsgHead.data.isPrefixOf i.message.data

/-- A required-field Issue: its message is the missing-field message of one
of the required fields. -/
def isFieldIssue (i : ManifestIssue) : Bool :=
  requiredFields.any (fun f => i.message == missingFieldMsg f)

/-- A theme-shape Issue. -/
def isThemeObjIssue (i : ManifestIssue) : Bool := i.message == themeObjMsg

/-- A colors-or-images recommendation Issue. -/
def isThemeRecIssue (i : ManifestIssue) : Bool := i.message == themeRecMsg

/-- Any theme-related Issue. -/
def isThemeIssue (i : ManifestIssue) : Bool :=
  isThemeObjIssue i || isThemeRecIssue i

/-- The issue list of a Validator outcome: its list on success, empty on an
uncaught exception. -/
def issuesOf (r : Except PyExc (List ManifestIssue)) : List ManifestIssue :=
  match r with
  | Except.ok is => is
  | Except.error _ => []

/-- The Issues one directory contributes to the aggregate: the load Issue
on a load failure, the Validator Issues on a loaded document that
validates without an exception. -/
def perDirIssues (files : String → FileJson) (p : String) : List ManifestIssue :=
  match load_manifest files p with
  | LoadResult.issue i => [i]
  | LoadResult.doc m =>
    match validate_manifest p m with
    | Except.ok is => is
    | Except.error _ => []

/-- Whether the load outcome at one path is sure not to make the Validator
raise: load failures never reach the Validator, and a parsed document is
safe exactly when it is an object. -/
def docIsObj : FileJson → Bool
  | FileJson.parsed (Json.obj _) => true
  | FileJson.parsed _ => false
  | _ => true

/-- A world whose one theme directory holds a manifest that parses to the
empty JSON array. -/
def arrayWorld : World where
  rootPath := "themes"
  rootExists := true
  entries := [⟨"broken", true⟩]
  files := fun p =>
    if p == "themes/broken/manifest.json" then FileJson.parsed (Json.arr [])
    else FileJson.missing

/-- A world whose one theme directory holds a fully conformant manifest. -/
def goodWorld : World where
  rootPath := "themes"
  rootExists := true
  entries := [⟨"solarized", true⟩]
  files := fun p =>
    if p == "themes/solarized/manifest.json" then
      FileJson.parsed (Json.obj [("manifest_version", Json.int 3),
        ("name", Json.str "Solarized"), ("version", Json.str "1.0"),
        ("theme", Json.obj [("colors", Json.obj [])])])
    else FileJson.missing

/-- A world whose one theme directory lacks its manifest file. -/
def brokenWorld : World where
  rootPath := "themes"
  rootExists := true
  entries := [⟨"broken", true⟩]
  files := fun _ => FileJson.missing

/-- A world without a themes root directory. -/
def noRootWorld : World where
  rootPath := "themes"
  rootExists := false
  entries := []
  files := fun _ => FileJson.missing

/-- On a dict the Validator returns exactly the three rule segments, in rule
order. -/
theorem validate_obj_eq (path : String) (kvs : List (String × Json)) :
    validate_manifest path (Json.obj kvs) =
      Except.ok (ruleVersionIssues path kvs ++ ruleFieldIssues path kvs ++
        ruleThemeIssues path kvs) := by
  unfold validate_manifest ruleVersionIssues ruleFieldIssues ruleThemeIssues
  cases h1 : pyEqInt (getD kvs "manifest_version") 3 <;>
    cases h2 : getD kvs "theme" <;>
      simp [h1, h2] <;> split <;> simp

/-- The characters of a manifest-version message, exposing the head
character. -/
theorem versionMsg_data (x : String) :
    (versionMsgHead ++ x).data =
      'e' :: ("xpected manifest_version 3, found ".data ++ x.data) := by
  rw [String.data_append]
  have h : versionMsgHead.data = 'e' :: "xpected manifest_version 3, found ".data := by
    decide
  rw [h]
  rfl

/-- A manifest-version message differs from any string not starting with the
letter e. -/
theorem versionMsg_ne (x t : String) (h : t.data.head? ≠ some 'e') :
    versionMsgHead ++ x ≠ t := by
  intro e
  apply h
  rw [← e, versionMsg_data]
  rfl

theorem isVersionIssue_version (p x : String) :
    isVersionIssue ⟨p, versionMsgHead ++ x⟩ = true := by
  have h : (versionMsgHead.data.isPrefixOf (versionMsgHead ++ x).data) = true := by
    rw [List.isPrefixOf_iff_prefix, String.data_append]
    exact List.prefix_append _ _
  exact h

theorem isVersionIssue_field (p f : String) (hf : f ∈ requiredFields) :
    isVersionIssue ⟨p, missingFieldMsg f⟩ = false := by
  fin_cases hf <;> rfl

theorem isVersionIssue_themeObj (p : String) :
    isVersionIssue ⟨p, themeObjMsg⟩ = false := rfl

theorem isVersionIssue_themeRec (p : String) :
    isVersionIssue ⟨p, themeRecMsg⟩ = false := rfl

theorem isFieldIssue_version (p x : String) :
    isFieldIssue ⟨p, versionMsgHead ++ x⟩ = false := by
  simp only [isFieldIssue, requiredFields, List.any_cons, List.any_nil,
    Bool.or_eq_false_iff, beq_eq_false_iff_ne]
  exact ⟨versionMsg_ne _ _ (by decide), versionMsg_ne _ _ (by decide),
    versionMsg_ne _ _ (by decide), trivial⟩

theorem isFieldIssue_field (p f : String) (hf : f ∈ requiredFields) :
    isFieldIssue ⟨p, missingFieldMsg f⟩ = true := by
  fin_cases hf <;> rfl

theorem isFieldIssue_themeObj (p : String) :
    isFieldIssue ⟨p, themeObjMsg⟩ = false := rfl

theorem isFieldIssue_themeRec (p : String) :
    isFieldIssue ⟨p, themeRecMsg⟩ = false := rfl

theorem isThemeObjIssue_version (p x : String) :
    isThemeObjIssue ⟨p, versionMsgHead ++ x⟩ = false := by
  simp only [isThemeObjIssue, beq_eq_false_iff_ne]
  exact versionMsg_ne _ _ (by decide)

theorem isThemeObjIssue_field (p f : String) (hf : f ∈ requiredFields) :
    isThemeObjIssue ⟨p, missingFieldMsg f⟩ = false := by
  fin_cases hf <;> rfl

theorem isThemeObjIssue_themeRec (p : String) :
    isThemeObjIssue ⟨p, themeRecMsg⟩ = false := rfl

theorem isThemeRecIssue_version (p x : String) :
    isThemeRecIssue ⟨p, versionMsgHead ++ x⟩ = false := by
  simp only [isThemeRecIssue, beq_eq_false_iff_ne]
  exact versionMsg_ne _ _ (by decide)

theorem isThemeRecIssue_field (p f : String) (hf : f ∈ requiredFields) :
    isThemeRecIssue ⟨p, missingFieldMsg f⟩ = false := by
  fin_cases hf <;> rfl

/-- Looking up a key that the dict does not hold gives None. -/
theorem getD_eq_null_of_not_hasKey (kvs : List (String × Json)) (k : String)
    (h : hasKey kvs k = false) : getD kvs k = Json.null := by
  have aux : ∀ (l : List (String × Json)) (acc : Json),
      (l.any (fun kv => kv.1 == k)) = false →
      l.foldl (fun acc kv => if kv.1 = k then kv.2 else acc) acc = acc := by
    intro l
    induction l with
    | nil => intro acc _; rfl
    | cons hd tl ih =>
      intro acc hany
      simp only [List.any_cons, Bool.or_eq_false_iff] at hany
      have hne : hd.1 ≠ k := by
        intro e
        simp [e] at hany
      simp only [List.foldl_cons, if_neg hne]
      exact ih acc hany.2
  exact aux kvs Json.null h

/-- An element of the version segment is the version Issue, and the segment
is only inhabited when the Python comparison against 3 fails. -/
theorem mem_ruleVersionIssues {p : String} {kvs : List (String × Json)}
    {i : ManifestIssue} (hi : i ∈ ruleVersionIssues p kvs) :
    pyEqInt (getD kvs "manifest_version") 3 = false ∧
    i = ⟨p, versionMsgHead ++ pyRepr (getD kvs "manifest_version")⟩ := by
  unfold ruleVersionIssues at hi
  split at hi
  · simp at hi
  · next h =>
    simp only [List.mem_singleton] at hi
    exact ⟨Bool.eq_false_iff.mpr h, hi⟩

/-- An element of the field segment is the missing-field Issue of one
missing required field. -/
theorem mem_ruleFieldIssues {p : String} {kvs : List (String × Json)}
    {i : ManifestIssue} (hi : i ∈ ruleFieldIssues p kvs) :
    ∃ f, f ∈ requiredFields ∧ hasKey kvs f = false ∧
      i = ⟨p, missingFieldMsg f⟩ := by
  unfold ruleFieldIssues at hi
  simp only [List.mem_map, List.mem_filter] at hi
  obtain ⟨f, ⟨hf, hmiss⟩, rfl⟩ := hi
  exact ⟨f, hf, by simpa using hmiss, rfl⟩

/-- An element of the theme segment is one of the two theme messages. -/
theorem mem_ruleThemeIssues {p : String} {kvs : List (String × Json)}
    {i : ManifestIssue} (hi : i ∈ ruleThemeIssues p kvs) :
    i = ⟨p, themeObjMsg⟩ ∨ i = ⟨p, themeRecMsg⟩ := by
  unfold ruleThemeIssues at hi
  split at hi
  · split at hi
    · simp at hi
    · simp only [List.mem_singleton] at hi
      exact Or.inr hi
  · simp only [List.mem_singleton] at hi
    exact Or.inl hi

/-- The two shapes the theme segment takes: the recommendation check when
the theme value is an object, the theme-shape Issue otherwise. -/
theorem ruleThemeIssues_spec (p : String) (kvs : List (String × Json)) :
    (∀ tb, getD kvs "theme" = Json.obj tb →
      ruleThemeIssues p kvs =
        (if hasKey tb "colors" || hasKey tb "images" then []
          else [⟨p, themeRecMsg⟩])) ∧
    (isObjJ (getD kvs "theme") = false →
      ruleThemeIssues p kvs = [⟨p, themeObjMsg⟩]) := by
  constructor
  · intro tb htb
    unfold ruleThemeIssues
    rw [htb]
    simp
  · intro hobj
    unfold ruleThemeIssues
    cases hgd : getD kvs "theme" <;> rw [hgd] at hobj
    case obj tb => simp [isObjJ] at hobj

/-- Exactly-one counting for the version Issue over the whole issue list of
one manifest. -/
theorem countP_version (p : String) (kvs : List (String × Json)) :
    List.countP isVersionIssue
        (ruleVersionIssues p kvs ++ ruleFieldIssues p kvs ++
          ruleThemeIssues p kvs) =
      (if pyEqInt (getD kvs "manifest_version") 3 then 0 else 1) := by
  rw [List.countP_append, List.countP_append]
  have h2 : List.countP isVersionIssue (ruleFieldIssues p kvs) = 0 := by
    rw [List.countP_eq_zero]
    intro i hi
    obtain ⟨f, hf, _, rfl⟩ := mem_ruleFieldIssues hi
    simp [isVersionIssue_field p f hf]
  have h3 : List.countP isVersionIssue (ruleThemeIssues p kvs) = 0 := by
    rw [List.countP_eq_zero]
    intro i hi
    rcases mem_ruleThemeIssues hi with rfl | rfl
    · simp [isVersionIssue_themeObj]
    · simp [isVersionIssue_themeRec]
  rw [h2, h3]
  unfold ruleVersionIssues
  split
  · rfl
  · simp [List.countP_cons, isVersionIssue_version]

/-- Exactly-one counting for the theme-shape Issue over the whole issue
list of one manifest. -/
theorem countP_themeObj (p : String) (kvs : List (String × Json)) :
    List.countP isThemeObjIssue
        (ruleVersionIssues p kvs ++ ruleFieldIssues p kvs ++
          ruleThemeIssues p kvs) =
      (if isObjJ (getD kvs "theme") then 0 else 1) := by
  rw [List.countP_append, List.countP_append]
  have h1 : List.countP isThemeObjIssue (ruleVersionIssues p kvs) = 0 := by
    rw [List.countP_eq_zero]
    intro i hi
    obtain ⟨-, rfl⟩ := mem_ruleVersionIssues hi
    simp [isThemeObjIssue_version]
  have h2 : List.countP isThemeObjIssue (ruleFieldIssues p kvs) = 0 := by
    rw [List.countP_eq_zero]
    intro i hi
    obtain ⟨f, hf, _, rfl⟩ := mem_ruleFieldIssues hi
    simp [isThemeObjIssue_field p f hf]
  rw [h1, h2]
  cases hobj : isObjJ (getD kvs "theme")
  · rw [(ruleThemeIssues_spec p kvs).2 hobj]
    simp [List.countP_cons, isThemeObjIssue]
  · cases hgd : getD kvs "theme" <;> rw [hgd] at hobj <;>
      simp [isObjJ] at hobj
    case obj tb =>
      rw [(ruleThemeIssues_spec p kvs).1 tb hgd]
      split
      · rfl
      · simp [List.countP_cons, isThemeObjIssue_themeRec]

/-- Exactly-one counting for the recommendation Issue over the whole issue
list of one manifest whose theme value is an object. -/
theorem countP_themeRec (p : String) (kvs tb : List (String × Json))
    (hgd : getD kvs "theme" = Json.obj tb) :
    List.countP isThemeRecIssue
        (ruleVersionIssues p kvs ++ ruleFieldIssues p kvs ++
          ruleThemeIssues p kvs) =
      (if hasKey tb "colors" || hasKey tb "images" then 0 else 1) := by
  rw [List.countP_append, List.countP_append]
  have h1 : List.countP isThemeRecIssue (ruleVersionIssues p kvs) = 0 := by
    rw [List.countP_eq_zero]
    intro i hi
    obtain ⟨-, rfl⟩ := mem_ruleVersionIssues hi
    simp [isThemeRecIssue_version]
  have h2 : List.countP isThemeRecIssue (ruleFieldIssues p kvs) = 0 := by
    rw [List.countP_eq_zero]
    intro i hi
    obtain ⟨f, hf, -, rfl⟩ := mem_ruleFieldIssues hi
    simp [isThemeRecIssue_field p f hf]
  rw [h1, h2, (ruleThemeIssues_spec p kvs).1 tb hgd]
  split
  · rfl
  · simp [List.countP_cons, isThemeRecIssue]

/-- When the theme object holds colors or images, no theme-related Issue at
all is produced. -/
theorem countP_themeIssue_zero (p : String) (kvs tb : List (String × Json))
    (hgd : getD kvs "theme" = Json.obj tb)
    (hk : (hasKey tb "colors" || hasKey tb "images") = true) :
    List.countP isThemeIssue
        (ruleVersionIssues p kvs ++ ruleFieldIssues p kvs ++
          ruleThemeIssues p kvs) = 0 := by
  rw [List.countP_eq_zero]
  intro i hi
  simp only [List.mem_append] at hi
  rcases hi with (hi | hi) | hi
  · obtain ⟨-, rfl⟩ := mem_ruleVersionIssues hi
    simp [isThemeIssue, isThemeObjIssue_version, isThemeRecIssue_version]
  · obtain ⟨f, hf, -, rfl⟩ := mem_ruleFieldIssues hi
    simp [isThemeIssue, isThemeObjIssue_field p f hf, isThemeRecIssue_field p f hf]
  · rw [(ruleThemeIssues_spec p kvs).1 tb hgd, hk] at hi
    simp at hi

/-- When every scanned path that parses gives an object, the scan completes
without an exception and the aggregate issue list is the concatenation of
the per-directory issue lists, in scan order. -/
theorem processPaths_flatten (files : String → FileJson) :
    ∀ (paths : List String),
    (∀ p ∈ paths, docIsObj (files p) = true) →
    processPaths files paths =
      Except.ok (paths.map (perDirIssues files)).flatten := by
  intro paths
  induction paths with
  | nil => intro _; rfl
  | cons p rest ih =>
    intro h
    have hp : docIsObj (files p) = true := h p (List.mem_cons_self p rest)
    have hrest := ih (fun q hq => h q (List.mem_cons_of_mem p hq))
    simp only [List.map_cons, List.flatten_cons]
    unfold processPaths perDirIssues load_manifest
    cases hf : files p with
    | missing => rw [hrest]; rfl
    | invalid err => rw [hrest]; rfl
    | parsed doc =>
      cases doc <;> rw [hf] at hp <;> simp [docIsObj] at hp
      case obj kvs =>
        simp only [hrest, validate_obj_eq]
        rfl

/-- The name comparison of the Locator is transitive. -/
theorem nameLe_trans (a b c : DirEntry) (hab : nameLe a b = true)
    (hbc : nameLe b c = true) : nameLe a c = true := by
  simp only [nameLe, decide_eq_true_eq] at *
  exact le_trans hab hbc

/-- The name comparison of the Locator is total. -/
theorem nameLe_total (a b : DirEntry) : (nameLe a b || nameLe b a) = true := by
  simp only [nameLe, Bool.or_eq_true, decide_eq_true_eq]
  exact le_total a.name b.name

/-- C1 (amended): the Validator yields the theme-shape Issue exactly once
when the value of theme — None when the key is absent — is not a JSON
object, and never otherwise; in particular a manifest lacking theme
receives both the missing-required-field Issue and the theme-shape Issue. -/
theorem c1_theme_shape_amended :
    ∀ (path : String) (kvs : List (String × Json)) (issues : List ManifestIssue),
    validate_manifest path (Json.obj kvs) = Except.ok issues →
    (List.countP isThemeObjIssue issues =
      if isObjJ (getD kvs "theme") then 0 else 1) ∧
    (hasKey kvs "theme" = false →
      (⟨path, themeObjMsg⟩ : ManifestIssue) ∈ issues ∧
      (⟨path, missingFieldMsg "theme"⟩ : ManifestIssue) ∈ issues) := by
  intro path kvs issues hv
  rw [validate_obj_eq] at hv
  injection hv with hv
  subst hv
  constructor
  · exact countP_themeObj path kvs
  · intro hmiss
    have hnull := getD_eq_null_of_not_hasKey kvs "theme" hmiss
    constructor
    · have ht : ruleThemeIssues path kvs = [⟨path, themeObjMsg⟩] :=
        (ruleThemeIssues_spec path kvs).2 (by rw [hnull]; rfl)
      simp [List.mem_append, ht]
    · have hmem : (⟨path, missingFieldMsg "theme"⟩ : ManifestIssue) ∈
          ruleFieldIssues path kvs := by
        unfold ruleFieldIssues
        simp only [List.mem_map, List.mem_filter]
        exact ⟨"theme", ⟨by simp [requiredFields], by simp [hmiss]⟩, rfl⟩
      simp [List.mem_append, hmem]

/-- C1 counterexample: for a manifest in which the key theme is absent, the
Validator nevertheless yields the theme-shape Issue, against the claim that
the Issue appears only when theme is present with a non-object value. -/
theorem c1_theme_shape_cex :
    hasKey ([] : List (String × Json)) "theme" = false ∧
    List.countP isThemeObjIssue
      (issuesOf (validate_manifest "p" (Json.obj []))) = 1 := by
  exact ⟨rfl, by decide⟩

/-- C1 witness: the amended characterisation evaluated at a manifest whose
only key is name. -/
theorem c1_theme_shape_amended_w :
    (List.countP isThemeObjIssue
        (issuesOf (validate_manifest "w" (Json.obj [("name", Json.str "n")]))) =
      if isObjJ (getD [("name", Json.str "n")] "theme") then 0 else 1) ∧
    (⟨"w", themeObjMsg⟩ : ManifestIssue) ∈
      issuesOf (validate_manifest "w" (Json.obj [("name", Json.str "n")])) ∧
    (⟨"w", missingFieldMsg "theme"⟩ : ManifestIssue) ∈
      issuesOf (validate_manifest "w" (Json.obj [("name", Json.str "n")])) := by
  have h := c1_theme_shape_amended "w" [("name", Json.str "n")]
    (issuesOf (validate_manifest "w" (Json.obj [("name", Json.str "n")]))) rfl
  exact ⟨h.1, (h.2 rfl).1, (h.2 rfl).2⟩

/-- C2 (amended): the Validator yields exactly one version Issue when the
value of manifest_version — None when absent — is unequal to 3 under Python
equality, and none when it equals 3; Python equality identifies the int 3
and the float 3.0, so a float value 3.0 yields no Issue.  When the Issue is
yielded its message states the expected value 3 and embeds the repr of the
found value. -/
theorem c2_version_amended :
    ∀ (path : String) (kvs : List (String × Json)) (issues : List ManifestIssue),
    validate_manifest path (Json.obj kvs) = Except.ok issues →
    (List.countP isVersionIssue issues =
      if pyEqInt (getD kvs "manifest_version") 3 then 0 else 1) ∧
    (pyEqInt (getD kvs "manifest_version") 3 = false →
      (⟨path, versionMsgHead ++ pyRepr (getD kvs "manifest_version")⟩ :
        ManifestIssue) ∈ issues) := by
  intro path kvs issues hv
  rw [validate_obj_eq] at hv
  injection hv with hv
  subst hv
  refine ⟨countP_version path kvs, ?_⟩
  intro hne
  have hmem : (⟨path, versionMsgHead ++ pyRepr (getD kvs "manifest_version")⟩ :
      ManifestIssue) ∈ ruleVersionIssues path kvs := by
    unfold ruleVersionIssues
    rw [hne]
    simp
  simp [List.mem_append, hmem]

/-- C2 counterexample: a manifest whose manifest_version is the JSON float
3.0 — a value that is not the integer 3 — passes the check of the Validator
without any Issue, because the Python comparison 3.0 != 3 is false. -/
theorem c2_version_cex :
    pyEqInt (Json.float 3) 3 = true ∧
    Json.float 3 ≠ Json.int 3 ∧
    getD [("manifest_version", Json.float 3)] "manifest_version" =
      Json.float 3 ∧
    issuesOf (validate_manifest "p" (Json.obj
      [("manifest_version", Json.float 3), ("name", Json.str "x"),
        ("version", Json.str "1"),
        ("theme", Json.obj [("colors", Json.obj [])])])) = [] := by
  refine ⟨by decide, fun h => Json.noConfusion h, rfl, by decide⟩

/-- C2 witness: the amended characterisation evaluated at a manifest whose
manifest_version is the int 2. -/
theorem c2_version_amended_w :
    (List.countP isVersionIssue
        (issuesOf (validate_manifest "w" (Json.obj
          [("manifest_version", Json.int 2)]))) =
      if pyEqInt (getD [("manifest_version", Json.int 2)] "manifest_version") 3
        then 0 else 1) ∧
    (⟨"w", versionMsgHead ++
        pyRepr (getD [("manifest_version", Json.int 2)] "manifest_version")⟩ :
      ManifestIssue) ∈
      issuesOf (validate_manifest "w" (Json.obj
        [("manifest_version", Json.int 2)])) := by
  have h := c2_version_amended "w" [("manifest_version", Json.int 2)]
    (issuesOf (validate_manifest "w" (Json.obj
      [("manifest_version", Json.int 2)]))) rfl
  exact ⟨h.1, h.2 (by decide)⟩

/-- C4: the required-field Issues of a validated manifest are exactly one
Issue per missing required field, in the listed field order, each naming
its field; their number equals the number of missing fields.  Presence is
tested on keys alone. -/
theorem c4_required_fields :
    ∀ (path : String) (kvs : List (String × Json)) (issues : List ManifestIssue),
    validate_manifest path (Json.obj kvs) = Except.ok issues →
    issues.filter isFieldIssue =
      (requiredFields.filter (fun f => !(hasKey kvs f))).map
        (fun f => (⟨path, missingFieldMsg f⟩ : ManifestIssue)) ∧
    (issues.filter isFieldIssue).length =
      (requiredFields.filter (fun f => !(hasKey kvs f))).length := by
  intro path kvs issues hv
  rw [validate_obj_eq] at hv
  injection hv with hv
  subst hv
  have hfil : (ruleVersionIssues path kvs ++ ruleFieldIssues path kvs ++
      ruleThemeIssues path kvs).filter isFieldIssue = ruleFieldIssues path kvs := by
    rw [List.filter_append, List.filter_append]
    have h1 : (ruleVersionIssues path kvs).filter isFieldIssue = [] := by
      rw [List.filter_eq_nil_iff]
      intro i hi
      obtain ⟨-, rfl⟩ := mem_ruleVersionIssues hi
      simp [isFieldIssue_version]
    have h2 : (ruleFieldIssues path kvs).filter isFieldIssue =
        ruleFieldIssues path kvs := by
      rw [List.filter_eq_self]
      intro i hi
      obtain ⟨f, hf, -, rfl⟩ := mem_ruleFieldIssues hi
      exact isFieldIssue_field path f hf
    have h3 : (ruleThemeIssues path kvs).filter isFieldIssue = [] := by
      rw [List.filter_eq_nil_iff]
      intro i hi
      rcases mem_ruleThemeIssues hi with rfl | rfl
      · simp [isFieldIssue_themeObj]
      · simp [isFieldIssue_themeRec]
    rw [h1, h2, h3]
    simp
  constructor
  · rw [hfil]
    rfl
  · rw [hfil]
    unfold ruleFieldIssues
    rw [List.length_map]

/-- C4 witness: the required-field characterisation evaluated at a manifest
holding only the key version, with name and theme missing. -/
theorem c4_required_fields_w :
    (issuesOf (validate_manifest "w"
          (Json.obj [("version", Json.str "1")]))).filter isFieldIssue =
      (requiredFields.filter
          (fun f => !(hasKey [("version", Json.str "1")] f))).map
        (fun f => (⟨"w", missingFieldMsg f⟩ : ManifestIssue)) ∧
    ((issuesOf (validate_manifest "w"
          (Json.obj [("version", Json.str "1")]))).filter isFieldIssue).length =
      (requiredFields.filter
        (fun f => !(hasKey [("version", Json.str "1")] f))).length :=
  c4_required_fields "w" [("version", Json.str "1")]
    (issuesOf (validate_manifest "w" (Json.obj [("version", Json.str "1")]))) rfl

/-- C5: when the theme value of a validated manifest is an object, the
recommendation Issue appears exactly once if the object holds neither
colors nor images, and no theme-related Issue appears when it holds at
least one of them. -/
theorem c5_theme_recommendation :
    ∀ (path : String) (kvs tb : List (String × Json))
      (issues : List ManifestIssue),
    validate_manifest path (Json.obj kvs) = Except.ok issues →
    getD kvs "theme" = Json.obj tb →
    (List.countP isThemeRecIssue issues =
      if hasKey tb "colors" || hasKey tb "images" then 0 else 1) ∧
    ((hasKey tb "colors" || hasKey tb "images") = true →
      List.countP isThemeIssue issues = 0) := by
  intro path kvs tb issues hv hgd
  rw [validate_obj_eq] at hv
  injection hv with hv
  subst hv
  exact ⟨countP_themeRec path kvs tb hgd,
    fun hk => countP_themeIssue_zero path kvs tb hgd hk⟩

/-- C5 witness: the recommendation characterisation evaluated at a manifest
whose theme is the empty object. -/
theorem c5_theme_recommendation_w :
    (List.countP isThemeRecIssue
        (issuesOf (validate_manifest "w" (Json.obj [("theme", Json.obj [])]))) =
      if hasKey ([] : List (String × Json)) "colors" ||
          hasKey ([] : List (String × Json)) "images" then 0 else 1) ∧
    ((hasKey ([] : List (String × Json)) "colors" ||
        hasKey ([] : List (String × Json)) "images") = true →
      List.countP isThemeIssue
        (issuesOf (validate_manifest "w" (Json.obj [("theme", Json.obj [])]))) = 0) :=
  c5_theme_recommendation "w" [("theme", Json.obj [])] []
    (issuesOf (validate_manifest "w" (Json.obj [("theme", Json.obj [])]))) rfl rfl

/-- The Locator applied to a one-entry listing. -/
theorem iter_singleton (root : String) (e : DirEntry) :
    iter_manifest_paths root [e] =
      if keepEntry e then [root ++ "/" ++ e.name ++ "/manifest.json"]
      else [] := by
  unfold iter_manifest_paths
  rw [List.mergeSort_singleton]
  cases h : keepEntry e <;> simp [h]

/-- C3 (amended): the Loader does return the parsed document regardless of
its top-level shape, but the Validator raises AttributeError on every
non-object document, so the run is exception-free on worlds whose scanned
manifest files only parse to objects. -/
theorem c3_no_crash_amended :
    ∀ (w : World) (p : String) (j : Json),
    (w.files p = FileJson.parsed j →
      load_manifest w.files p = LoadResult.doc j) ∧
    ((∀ q ∈ iter_manifest_paths w.rootPath w.entries,
        docIsObj (w.files q) = true) →
      (main w).isOk = true) := by
  intro w p j
  constructor
  · intro h
    unfold load_manifest
    rw [h]
  · intro hsafe
    unfold main
    cases hroot : w.rootExists
    · rfl
    · rw [processPaths_flatten w.files _ hsafe]
      cases hE : (List.map (perDirIssues w.files)
          (iter_manifest_paths w.rootPath w.entries)).flatten.isEmpty <;>
        simp [hE, Except.isOk, Except.toBool]

/-- C3 counterexample: a world whose one manifest file parses to the empty
JSON array — syntactically valid JSON — makes the run abort with an
uncaught AttributeError instead of turning the shape problem into an
Issue. -/
theorem c3_no_crash_cex :
    main arrayWorld = Except.error (PyExc.attributeError
      (sq ++ "list" ++ sq ++ " object has no attribute " ++
        sq ++ "get" ++ sq)) := by
  have hiter : iter_manifest_paths arrayWorld.rootPath arrayWorld.entries =
      ["themes/broken/manifest.json"] := by
    show iter_manifest_paths "themes" [⟨"broken", true⟩] = _
    rw [iter_singleton]
    rfl
  unfold main
  rw [hiter]
  rfl

/-- C3 witness: the amended statement evaluated on a world with one
conformant manifest. -/
theorem c3_no_crash_amended_w :
    load_manifest goodWorld.files "themes/solarized/manifest.json" =
      LoadResult.doc (Json.obj [("manifest_version", Json.int 3),
        ("name", Json.str "Solarized"), ("version", Json.str "1.0"),
        ("theme", Json.obj [("colors", Json.obj [])])]) ∧
    (main goodWorld).isOk = true := by
  have hiter : iter_manifest_paths goodWorld.rootPath goodWorld.entries =
      ["themes/solarized/manifest.json"] := by
    show iter_manifest_paths "themes" [⟨"solarized", true⟩] = _
    rw [iter_singleton]
    rfl
  have h := c3_no_crash_amended goodWorld "themes/solarized/manifest.json"
    (Json.obj [("manifest_version", Json.int 3),
      ("name", Json.str "Solarized"), ("version", Json.str "1.0"),
      ("theme", Json.obj [("colors", Json.obj [])])])
  refine ⟨h.1 rfl, h.2 ?_⟩
  rw [hiter]
  decide

/-- C6: the Locator yields one path dir/manifest.json per immediate child
directory whose name does not start with a dot, excludes non-directories,
orders its output by directory name, and depends only on the directory
listing, never on which manifest files exist. -/
theorem c6_locator :
    ∀ (root : String) (entries : List DirEntry),
    (∀ pth, pth ∈ iter_manifest_paths root entries ↔
      ∃ e, e ∈ entries ∧ e.isDir = true ∧ startswith e.name "." = false ∧
        pth = root ++ "/" ++ e.name ++ "/manifest.json") ∧
    iter_manifest_paths root entries =
      ((entries.mergeSort nameLe).filter keepEntry).map
        (fun e => root ++ "/" ++ e.name ++ "/manifest.json") ∧
    (iter_manifest_paths root entries).length =
      (entries.filter keepEntry).length ∧
    List.Pairwise (fun a b => a.name ≤ b.name)
      ((entries.mergeSort nameLe).filter keepEntry) := by
  intro root entries
  refine ⟨?_, rfl, ?_, ?_⟩
  · intro pth
    unfold iter_manifest_paths
    simp only [List.mem_map, List.mem_filter, List.mem_mergeSort, keepEntry,
      Bool.and_eq_true, Bool.not_eq_true']
    constructor
    · rintro ⟨e, ⟨he, hdot, hdir⟩, rfl⟩
      exact ⟨e, he, hdir, hdot, rfl⟩
    · rintro ⟨e, he, hdir, hdot, rfl⟩
      exact ⟨e, ⟨he, hdot, hdir⟩, rfl⟩
  · unfold iter_manifest_paths
    rw [List.length_map, ← List.countP_eq_length_filter,
      ← List.countP_eq_length_filter]
    exact List.Perm.countP_eq _ (List.mergeSort_perm entries nameLe)
  · have hs := List.sorted_mergeSort nameLe_trans nameLe_total entries
    exact (hs.filter keepEntry).imp
      (fun {a b} h => by simpa [nameLe] using h)

/-- C6 witness: the Locator characterisation evaluated on a listing with a
hidden entry, a plain file and two directories out of name order. -/
theorem c6_locator_w :
    iter_manifest_paths "T" [⟨"b", true⟩, ⟨".hid", true⟩, ⟨"a", true⟩,
        ⟨"f", false⟩] =
      (([⟨"b", true⟩, ⟨".hid", true⟩, ⟨"a", true⟩,
          ⟨"f", false⟩] : List DirEntry).mergeSort nameLe
        |>.filter keepEntry).map
        (fun e => "T" ++ "/" ++ e.name ++ "/manifest.json") ∧
    (iter_manifest_paths "T" [⟨"b", true⟩, ⟨".hid", true⟩, ⟨"a", true⟩,
        ⟨"f", false⟩]).length =
      (([⟨"b", true⟩, ⟨".hid", true⟩, ⟨"a", true⟩,
          ⟨"f", false⟩] : List DirEntry).filter keepEntry).length ∧
    List.Pairwise (fun a b => a.name ≤ b.name)
      ((([⟨"b", true⟩, ⟨".hid", true⟩, ⟨"a", true⟩,
          ⟨"f", false⟩] : List DirEntry).mergeSort nameLe).filter keepEntry) := by
  have h := c6_locator "T" [⟨"b", true⟩, ⟨".hid", true⟩, ⟨"a", true⟩,
    ⟨"f", false⟩]
  exact ⟨h.2.1, h.2.2.1, h.2.2.2⟩

/-- C7: the Loader yields the missing-manifest Issue exactly on missing
files, wraps the parser diagnostic verbatim into the invalid-JSON Issue on
parse failures, returns the parsed document otherwise, and a load failure
only prepends its Issue to the outcome of the remaining scan. -/
theorem c7_loader :
    ∀ (files : String → FileJson) (path : String),
    (files path = FileJson.missing →
      load_manifest files path =
        LoadResult.issue ⟨path, "missing manifest.json"⟩) ∧
    (∀ e, files path = FileJson.invalid e →
      load_manifest files path =
        LoadResult.issue ⟨path, "invalid JSON: " ++ e⟩) ∧
    (∀ j, files path = FileJson.parsed j →
      load_manifest files path = LoadResult.doc j) ∧
    (∀ rest i, load_manifest files path = LoadResult.issue i →
      processPaths files (path :: rest) =
        Except.map (fun is => i :: is) (processPaths files rest)) := by
  intro files path
  refine ⟨?_, ?_, ?_, ?_⟩
  · intro h
    unfold load_manifest
    rw [h]
  · intro e h
    unfold load_manifest
    rw [h]
  · intro j h
    unfold load_manifest
    rw [h]
  · intro rest i h
    conv_lhs => unfold processPaths
    rw [h]
    cases hrest : processPaths files rest <;> rfl

/-- C7 witness: the Loader contract evaluated on a world whose manifest
file is missing. -/
theorem c7_loader_w :
    load_manifest brokenWorld.files "themes/broken/manifest.json" =
      LoadResult.issue ⟨"themes/broken/manifest.json",
        "missing manifest.json"⟩ ∧
    processPaths brokenWorld.files ["themes/broken/manifest.json"] =
      Except.map
        (fun is => (⟨"themes/broken/manifest.json",
          "missing manifest.json"⟩ : ManifestIssue) :: is)
        (processPaths brokenWorld.files []) := by
  have h := c7_loader brokenWorld.files "themes/broken/manifest.json"
  exact ⟨h.1 rfl, h.2.2.2 [] _ (h.1 rfl)⟩

/-- C8: a missing themes root gives exit code 2 with one diagnostic line
and no stdout; otherwise an empty aggregate gives exit code 0 with the
single success line, and a non-empty aggregate gives exit code 1 with the
header line and one indented line per Issue. -/
theorem c8_exit_codes :
    ∀ (w : World),
    (w.rootExists = false →
      main w = Except.ok ⟨2, [],
        ["error: themes directory not found: " ++ w.rootPath]⟩) ∧
    (∀ issues, w.rootExists = true →
      processPaths w.files (iter_manifest_paths w.rootPath w.entries) =
        Except.ok issues →
      (issues = [] →
        main w = Except.ok ⟨0, ["All theme manifests look good."], []⟩) ∧
      (issues ≠ [] →
        main w = Except.ok ⟨1, "Theme manifest validation failed:" ::
          issues.map (fun i => "  - " ++ i.format), []⟩)) := by
  intro w
  constructor
  · intro h
    unfold main
    rw [h]
    rfl
  · intro issues hroot hproc
    constructor <;> intro hiss
    · subst hiss
      unfold main
      rw [hroot, hproc]
      rfl
    · unfold main
      rw [hroot, hproc]
      simp [List.isEmpty_eq_false.mpr hiss]

/-- C8 witness: both exit paths evaluated — a world with no themes root,
and a world whose one directory lacks its manifest. -/
theorem c8_exit_codes_w :
    main noRootWorld = Except.ok ⟨2, [],
      ["error: themes directory not found: " ++ noRootWorld.rootPath]⟩ ∧
    main brokenWorld = Except.ok ⟨1, "Theme manifest validation failed:" ::
      ([(⟨"themes/broken/manifest.json", "missing manifest.json"⟩ :
        ManifestIssue)].map (fun i => "  - " ++ i.format)), []⟩ := by
  have hiter : iter_manifest_paths brokenWorld.rootPath brokenWorld.entries =
      ["themes/broken/manifest.json"] := by
    show iter_manifest_paths "themes" [⟨"broken", true⟩] = _
    rw [iter_singleton]
    rfl
  have h1 := (c8_exit_codes noRootWorld).1 rfl
  have h2 := (c8_exit_codes brokenWorld).2
    [⟨"themes/broken/manifest.json", "missing manifest.json"⟩] rfl
    (by rw [hiter]; rfl)
  exact ⟨h1, h2.2 (by simp)⟩

/-- C9: the issue order is fully determined — within one manifest the
Validator emits the version segment, then the required-field segment in
listed field order, then the theme segment; across the run the aggregate
is the concatenation of per-directory issue lists in Locator order. -/
theorem c9_issue_order :
    ∀ (path : String) (kvs : List (String × Json)) (issues : List ManifestIssue),
    (validate_manifest path (Json.obj kvs) = Except.ok issues →
      issues = ruleVersionIssues path kvs ++ ruleFieldIssues path kvs ++
        ruleThemeIssues path kvs) ∧
    (∀ (files : String → FileJson) (paths : List String),
      (∀ p ∈ paths, docIsObj (files p) = true) →
      processPaths files paths =
        Except.ok (paths.map (perDirIssues files)).flatten) := by
  intro path kvs issues
  constructor
  · intro hv
    rw [validate_obj_eq] at hv
    injection hv with hv
    exact hv.symm
  · intro files paths h
    exact processPaths_flatten files paths h

/-- C9 witness: the ordering contract evaluated at the empty manifest and
on the world with one conformant manifest. -/
theorem c9_issue_order_w :
    issuesOf (validate_manifest "w" (Json.obj [])) =
      ruleVersionIssues "w" [] ++ ruleFieldIssues "w" [] ++
        ruleThemeIssues "w" [] ∧
    processPaths goodWorld.files ["themes/solarized/manifest.json"] =
      Except.ok ((["themes/solarized/manifest.json"].map
        (perDirIssues goodWorld.files)).flatten) := by
  have h := c9_issue_order "w" [] (issuesOf (validate_manifest "w" (Json.obj [])))
  exact ⟨h.1 rfl, h.2 goodWorld.files ["themes/solarized/manifest.json"]
    (by decide)⟩

/-- C10: every Issue carries the path it was produced for — the Loader
Issue of a path p names p, and every Issue the Validator yields for path p
names p. -/
theorem c10_issue_path :
    ∀ (files : String → FileJson) (p : String) (m : Json),
    (∀ i, load_manifest files p = LoadResult.issue i → i.path = p) ∧
    (∀ issues, validate_manifest p m = Except.ok issues →
      ∀ i ∈ issues, i.path = p) := by
  intro files p m
  constructor
  · intro i h
    unfold load_manifest at h
    cases hf : files p <;> rw [hf] at h
    · injection h with h2
      rw [← h2]
    · injection h with h2
      rw [← h2]
    · exact LoadResult.noConfusion h
  · intro issues hv i hi
    cases m
    case obj kvs =>
      rw [validate_obj_eq] at hv
      injection hv with hv
      subst hv
      simp only [List.mem_append] at hi
      rcases hi with (hi | hi) | hi
      · obtain ⟨-, rfl⟩ := mem_ruleVersionIssues hi
        rfl
      · obtain ⟨f, -, -, rfl⟩ := mem_ruleFieldIssues hi
        rfl
      · rcases mem_ruleThemeIssues hi with rfl | rfl <;> rfl
    all_goals exact Except.noConfusion hv

/-- C10 witness: the path invariant evaluated on a missing manifest and on
the empty-object manifest. -/
theorem c10_issue_path_w :
    (⟨"themes/broken/manifest.json", "missing manifest.json"⟩ :
      ManifestIssue).path = "themes/broken/manifest.json" ∧
    (⟨"w", themeObjMsg⟩ : ManifestIssue).path = "w" := by
  have h1 := c10_issue_path brokenWorld.files "themes/broken/manifest.json"
    (Json.obj [])
  have h2 := c10_issue_path brokenWorld.files "w" (Json.obj [])
  exact ⟨h1.1 _ rfl,
    h2.2 (issuesOf (validate_manifest "w" (Json.obj []))) rfl _ (by decide)⟩

end Archon
